import Mathlib

/-!
Shallow embedding of the ProfitPulse poker bankroll tracker
(backend/models.py, backend/storage.py, backend/api.py) and proofs about it.

Conventions of the embedding:
* Python floats are modelled as rationals; the repository only ever adds,
  subtracts and divides user-entered decimal amounts.
* A raised Python exception in a modelled code path is an `Except.error`
  carrying the exception class, or an `Option.none` where the surrounding code
  treats the raise and the null result identically.
* JSON scalar values that can reach a numeric conversion are modelled by
  `PyVal` (null, string, number); non-scalar payloads (arrays, objects,
  booleans) are outside the model.
* `models.py` defines parts of `Session` twice.  The statements between the
  two method blocks (the second docstring, the `self.profit = ...`
  assignments) sit inside the body of the first `__repr__` after its
  `return`, so they never execute; the second class-level definitions of
  `_infer_stake_from_game`, `profit`, `hourly_rate` and `__repr__` shadow the
  first ones.  The embedding follows the class as Python effectively sees it:
  `profit` and `hourly_rate` are computed properties, never stored.
-/

namespace ProfitPulse

/-- Exception classes raised by the modelled code paths. -/
inductive PyErr
  | typeError
  | valueError
  | attributeError
  | keyError
deriving DecidableEq

/-- A JSON scalar value as Python receives it from `request.get_json()`:
null, a string, or a number. -/
inductive PyVal
  | vNull
  | vStr (s : String)
  | vNum (q : ℚ)
deriving DecidableEq

/-- Python truthiness of an optional string: `None` and `""` are falsy. -/
def truthyS : Option String → Bool
  | none => false
  | some s => !(s == "")

/-- Python `x or d` for an optional string `x` and a string default `d`. -/
def pyOrStr (x : Option String) (d : String) : String :=
  match x with
  | none => d
  | some s => if s = "" then d else s

/-! ### Decimal digits and fixed-width numbers (for ISO-8601 dates) -/

/-- The ASCII character of a decimal digit. -/
def digitChar (d : ℕ) : Char := Char.ofNat (48 + d)

/-- The value of an ASCII decimal digit, if the character is one. -/
def digitVal (c : Char) : Option ℕ :=
  if c.isDigit then some (c.toNat - 48) else none

/-- Two-digit zero-padded decimal representation (`%02d`), for n ≤ 99. -/
def pad2 (n : ℕ) : List Char := [digitChar (n / 10), digitChar (n % 10)]

/-- Four-digit zero-padded decimal representation (`%04d`), for n ≤ 9999. -/
def pad4 (n : ℕ) : List Char :=
  [digitChar (n / 1000), digitChar (n / 100 % 10), digitChar (n / 10 % 10),
    digitChar (n % 10)]

/-- Six-digit zero-padded decimal representation (`%06d`), for n ≤ 999999. -/
def pad6 (n : ℕ) : List Char :=
  [digitChar (n / 100000), digitChar (n / 10000 % 10), digitChar (n / 1000 % 10),
    digitChar (n / 100 % 10), digitChar (n / 10 % 10), digitChar (n % 10)]

/-- Parse two decimal digit characters. -/
def parse2 (a b : Char) : Option ℕ := do
  pure (10 * (← digitVal a) + (← digitVal b))

/-- Parse four decimal digit characters. -/
def parse4 (a b c d : Char) : Option ℕ := do
  pure (1000 * (← digitVal a) + 100 * (← digitVal b) + 10 * (← digitVal c)
    + (← digitVal d))

/-- Parse six decimal digit characters. -/
def parse6 (a b c d e f : Char) : Option ℕ := do
  pure (100000 * (← digitVal a) + 10000 * (← digitVal b) + 1000 * (← digitVal c)
    + 100 * (← digitVal d) + 10 * (← digitVal e) + (← digitVal f))

/-! ### datetime

The repository keeps a `datetime.datetime` in `Session.date` and serializes it
with `isoformat` / parses it back with `fromisoformat` in `storage.py`. -/

/-- A Python naive `datetime.datetime` value. -/
structure DateTime where
  year : ℕ
  month : ℕ
  day : ℕ
  hour : ℕ
  minute : ℕ
  second : ℕ
  microsecond : ℕ
deriving DecidableEq

/-- The digit-count bounds every real `datetime.datetime` satisfies
(Python enforces 1 ≤ year ≤ 9999, 1 ≤ month ≤ 12, 1 ≤ day ≤ 31,
hour ≤ 23, minute ≤ 59, second ≤ 59, microsecond ≤ 999999; only these
weaker bounds are needed for the serialization round trip). -/
def DateTime.InRange (d : DateTime) : Prop :=
  d.year ≤ 9999 ∧ d.month ≤ 99 ∧ d.day ≤ 99 ∧ d.hour ≤ 99 ∧ d.minute ≤ 99 ∧
    d.second ≤ 99 ∧ d.microsecond ≤ 999999

instance (d : DateTime) : Decidable d.InRange := by
  unfold DateTime.InRange; infer_instance

/-- The character sequence of `datetime.isoformat()`:
`YYYY-MM-DDTHH:MM:SS` with `.ffffff` appended only when the microsecond
field is nonzero, exactly as Python prints it. -/
def isoChars (d : DateTime) : List Char :=
  pad4 d.year ++ '-' :: pad2 d.month ++ '-' :: pad2 d.day ++
    'T' :: pad2 d.hour ++ ':' :: pad2 d.minute ++ ':' :: pad2 d.second ++
    (if d.microsecond = 0 then [] else '.' :: pad6 d.microsecond)

/-- `datetime.isoformat()`. -/
def DateTime.isoformat (d : DateTime) : String := String.mk (isoChars d)

/-- The optional fractional-seconds tail of an ISO string: empty means
microsecond 0, otherwise a dot followed by exactly six digits. -/
def parseMicro : List Char → Option ℕ
  | [] => some 0
  | '.' :: u1 :: u2 :: u3 :: u4 :: u5 :: u6 :: [] => parse6 u1 u2 u3 u4 u5 u6
  | _ => none

/-- Parser for the strings `isoformat` produces (the subset of ISO-8601 that
`datetime.fromisoformat` receives on the storage round trip). -/
def fromIsoChars : List Char → Option DateTime
  | y1 :: y2 :: y3 :: y4 :: '-' :: m1 :: m2 :: '-' :: d1 :: d2 ::
      'T' :: h1 :: h2 :: ':' :: n1 :: n2 :: ':' :: s1 :: s2 :: rest => do
    let y ← parse4 y1 y2 y3 y4
    let mo ← parse2 m1 m2
    let da ← parse2 d1 d2
    let ho ← parse2 h1 h2
    let mi ← parse2 n1 n2
    let se ← parse2 s1 s2
    let us ← parseMicro rest
    pure ⟨y, mo, da, ho, mi, se, us⟩
  | _ => none

/-- `datetime.fromisoformat`; raises `ValueError` on strings it cannot parse. -/
def datetimeFromisoformat (s : String) : Except PyErr DateTime :=
  match fromIsoChars s.data with
  | some d => .ok d
  | none => .error .valueError

/-! ### Python string and number primitives used by the handlers -/

/-- Python `str.split()` (no argument): split on runs of whitespace,
producing no empty pieces.  `cur` accumulates the current token reversed. -/
def splitWsAux : List Char → List Char → List (List Char)
  | [], cur => if cur.isEmpty then [] else [cur.reverse]
  | c :: rest, cur =>
    if c.isWhitespace then
      if cur.isEmpty then splitWsAux rest [] else cur.reverse :: splitWsAux rest []
    else splitWsAux rest (c :: cur)

/-- Python `str.split()` on a string, as lists of characters. -/
def splitWs (s : String) : List (List Char) := splitWsAux s.data []

/-- Leading run of decimal digits of a character list, and the rest. -/
def spanDigits : List Char → List Char × List Char
  | [] => ([], [])
  | c :: rest =>
    if c.isDigit then
      let (a, b) := spanDigits rest
      (c :: a, b)
    else ([], c :: rest)

/-- Value of a list of decimal digit characters. -/
def natOfDigits (l : List Char) : ℕ :=
  l.foldl (fun acc c => 10 * acc + (c.toNat - 48)) 0

/-- Strip leading and trailing whitespace (Python `str.strip()` as applied by
`float` and `int` to their string argument). -/
def stripChars (l : List Char) : List Char :=
  ((l.dropWhile Char.isWhitespace).reverse.dropWhile Char.isWhitespace).reverse

/-- Python `float(string)` on plain signed decimal literals
(`digits`, `digits.digits`, `.digits`, `digits.`): `none` models the
`ValueError` raise.  Exponent, underscore, `inf` and `nan` forms are outside
the model; no payload in the claims uses them. -/
def parseFloatChars (cs : List Char) : Option ℚ :=
  let signed : Bool × List Char :=
    match cs with
    | '-' :: t => (true, t)
    | '+' :: t => (false, t)
    | _ => (false, cs)
  let (ip, rest) := spanDigits signed.2
  let mag : Option ℚ :=
    match rest with
    | [] => if ip.isEmpty then none else some (natOfDigits ip)
    | '.' :: fr =>
      let (fp, rest2) := spanDigits fr
      if !rest2.isEmpty then none
      else if ip.isEmpty && fp.isEmpty then none
      else some ((natOfDigits ip : ℚ) + (natOfDigits fp : ℚ) / ((10 : ℚ) ^ fp.length))
    | _ => none
  mag.map (fun v => if signed.1 then -v else v)

/-- Python `float` applied to a string. -/
def pyFloatOfString (s : String) : Option ℚ := parseFloatChars (stripChars s.data)

/-- Python `int(string)` on plain signed integer literals; `none` models the
`ValueError` raise. -/
def parseIntChars (cs : List Char) : Option ℤ :=
  let signed : Bool × List Char :=
    match cs with
    | '-' :: t => (true, t)
    | '+' :: t => (false, t)
    | _ => (false, cs)
  let (ip, rest) := spanDigits signed.2
  if ip.isEmpty || !rest.isEmpty then none
  else some (if signed.1 then -(natOfDigits ip : ℤ) else (natOfDigits ip : ℤ))

/-- Python `int(q)` on a float: truncation toward zero. -/
def truncRat (q : ℚ) : ℤ := q.num.tdiv q.den

/-- Python `float(v)` on a JSON scalar: `TypeError` on null, `ValueError` on a
non-numeric string, the value otherwise. -/
def pyFloat : PyVal → Except PyErr ℚ
  | .vNull => .error .typeError
  | .vStr s =>
    match pyFloatOfString s with
    | some q => .ok q
    | none => .error .valueError
  | .vNum q => .ok q

/-- Python `int(v)` on a JSON scalar: `none` models the `TypeError` /
`ValueError` raise. -/
def pyInt : PyVal → Option ℤ
  | .vNull => none
  | .vStr s => parseIntChars (stripChars s.data)
  | .vNum q => some (truncRat q)

/-! ### Session (`models.py`) -/

/-- The attribute state of a `Session` object.  Fields that the PUT handler in
`api.py` can set to `None` are `Option`-typed even though `__init__` always
stores a value there. -/
structure Session where
  game : Option String
  buy_in : Option ℚ
  cash_out : Option ℚ
  location : Option String
  hours_played : Option ℚ
  notes : Option String
  date : DateTime
  stake : Option String
  format : Option String
  bullets : ℤ
  tag : Option String
deriving DecidableEq

/-- `Session._infer_stake_from_game` (the second, effective definition):
`game.split()`, then the first token if it contains a slash, else
`"unknown"`.  Raises `AttributeError` when `game` is `None`
(`None.split()`). -/
def inferStakeFromGame (game : Option String) : Except PyErr String :=
  match game with
  | none => .error .attributeError
  | some g =>
    match splitWs g with
    | [] => .ok "unknown"
    | p :: _ => if '/' ∈ p then .ok (String.mk p) else .ok "unknown"

/-- `Session.__init__`.  Arguments appear in the source order; `now` stands
for `datetime.now()`.  `buy_in` and `cash_out` pass through `float(...)`;
`stake or self._infer_stake_from_game(game)` runs the inference whenever
the given stake is falsy (absent or empty); `bullets` is
`int(bullets) if bullets is not None else 1`; `tag` is stored as
`tag or ""`.  The dead `self.profit` assignments in the source sit in
unreachable code (after `return` in the first `__repr__`) and never run. -/
def sessionInit (game : Option String) (buy_in cash_out : PyVal)
    (location : Option String) (hours_played : Option ℚ) (notes : Option String)
    (date : Option DateTime) (now : DateTime) (stake : Option String)
    (format : Option String) (bullets : Option ℤ) (tag : Option String) :
    Except PyErr Session := do
  let b ← pyFloat buy_in
  let c ← pyFloat cash_out
  let st ←
    if truthyS stake then pure (stake.getD "") else inferStakeFromGame game
  pure
    { game := game
      buy_in := some b
      cash_out := some c
      location := location
      hours_played := hours_played
      notes := notes
      date := date.getD now
      stake := some st
      format := format
      bullets := bullets.getD 1
      tag := some (tag.getD "") }

/-- The effective `Session.profit` property: `self.cash_out - self.buy_in`.
`none` models the `TypeError` raised when a PUT has set either side to
`None`. -/
def Session.profit (s : Session) : Option ℚ :=
  match s.cash_out, s.buy_in with
  | some c, some b => some (c - b)
  | _, _ => none

/-- The effective `Session.hourly_rate` property: `None` when `hours_played`
is `None` or `≤ 0`, else `profit / hours_played`. -/
def Session.hourly_rate (s : Session) : Option ℚ :=
  match s.hours_played with
  | none => none
  | some h => if h ≤ 0 then none else s.profit.map (fun pr => pr / h)

/-! ### Bankroll (`models.py`) -/

/-- `Bankroll`: a starting amount and the ordered session list. -/
structure Bankroll where
  starting_amount : ℚ
  sessions : List Session
deriving DecidableEq

/-- `Bankroll.__init__`: rejects a negative starting amount with
`ValueError`, otherwise starts with an empty session list. -/
def bankrollInit (starting_amount : ℚ) : Except PyErr Bankroll :=
  if starting_amount < 0 then .error .valueError
  else .ok ⟨starting_amount, []⟩

/-- The loop body of `Bankroll.bankroll_history`: running value `current`,
appending `current + s.profit` per session; `none` models the `TypeError`
raised if some session's profit is undefined. -/
def historyAux (current : ℚ) : List Session → Option (List ℚ)
  | [] => some []
  | s :: rest =>
    match s.profit with
    | none => none
    | some p => (historyAux (current + p) rest).map (fun l => (current + p) :: l)

/-- `Bankroll.bankroll_history`: bankroll value after each session in
sequence order. -/
def Bankroll.bankroll_history (b : Bankroll) : Option (List ℚ) :=
  historyAux b.starting_amount b.sessions

/-! ### Storage (`storage.py`) -/

/-- The JSON object `_session_to_dict` writes for one session.  Saved files
always contain every key, so each field only distinguishes null from a
value; `date` holds the ISO string or null. -/
structure SessionDict where
  game : Option String
  buy_in : Option ℚ
  cash_out : Option ℚ
  location : Option String
  hours_played : Option ℚ
  notes : Option String
  date : Option String
  bullets : Option ℤ
  tag : Option String
  format : Option String
  stake : Option String
deriving DecidableEq

/-- `_session_to_dict`. -/
def sessionToDict (s : Session) : SessionDict :=
  { game := s.game
    buy_in := s.buy_in
    cash_out := s.cash_out
    location := s.location
    hours_played := s.hours_played
    notes := s.notes
    date := some s.date.isoformat
    bullets := some s.bullets
    tag := s.tag
    format := s.format
    stake := s.stake }

/-- The stored numeric JSON value as the scalar `float(...)` receives in
`Session.__init__`: null becomes Python `None`. -/
def dictNum : Option ℚ → PyVal
  | none => .vNull
  | some q => .vNum q

/-- `_session_from_dict`: parse the date if the string is truthy, then
rebuild the `Session` through `Session.__init__` with the same defaulting
as in the source (`d.get("location") or "Unknown"`,
`d.get("notes") or ""`). -/
def sessionFromDict (d : SessionDict) (now : DateTime) : Except PyErr Session := do
  let date ←
    match d.date with
    | none => pure none
    | some str =>
      if str = "" then pure none
      else (datetimeFromisoformat str).map some
  sessionInit d.game (dictNum d.buy_in) (dictNum d.cash_out)
    (some (pyOrStr d.location "Unknown")) d.hours_played
    (some (pyOrStr d.notes "")) date now d.stake d.format d.bullets d.tag

/-- `save_bankroll`: the sessions array of the JSON document written to disk
(the starting amount is not persisted). -/
def saveBankroll (b : Bankroll) : List SessionDict := b.sessions.map sessionToDict

/-- `load_bankroll` on an existing file: `Bankroll()` (starting amount 0)
and one `_session_from_dict` per stored entry. -/
def loadBankroll (file : List SessionDict) (now : DateTime) :
    Except PyErr Bankroll := do
  let ss ← file.mapM (fun d => sessionFromDict d now)
  pure ⟨0, ss⟩

/-! ### API layer (`api.py`) -/

/-- The POST `/api/sessions` body.  String-valued fields are read with
`data.get(key)`, which collapses an absent key and an explicit null into
Python `None`, so they are a single `Option`.  For `buy_in` and `cash_out`
the code indexes `data[key]` directly, so absence (`KeyError`) and a null
value (`TypeError` inside `float`) behave differently: those fields keep the
raw scalar. -/
structure PostPayload where
  game : Option String := none
  buy_in : Option PyVal := none
  cash_out : Option PyVal := none
  location : Option String := none
  hours_played : Option PyVal := none
  notes : Option String := none
  bullets : Option PyVal := none
  tag : Option String := none
  format : Option String := none
  stake : Option String := none

/-- The POST handler's `hours_played` pre-processing: absent or null stays
`None`; otherwise `float(...)` with `TypeError` and `ValueError` both
mapped to `None`. -/
def postHours : Option PyVal → Option ℚ
  | none => none
  | some .vNull => none
  | some v => (pyFloat v).toOption

/-- The POST handler's `bullets` pre-processing: `int(bullets)` when the value
is neither `None` nor the empty string, with any conversion error (and the
`None`/empty cases) falling back to 1. -/
def postBullets : Option PyVal → ℤ
  | none => 1
  | some .vNull => 1
  | some (.vStr "") => 1
  | some v => (pyInt v).getD 1

/-- Outcome of the POST `/api/sessions` handler.  `badRequest` is the 400
response with an error message; `crash` is an exception escaping the handler
(Flask turns it into a 500); `created` is the 201 response. -/
inductive PostOutcome
  | badRequest
  | crash
  | created (s : Session)
deriving DecidableEq

/-- The POST branch of `api_sessions`: `float(data["buy_in"])` and
`float(data["cash_out"])` under an `except (KeyError, ValueError)` that does
not catch `TypeError`; then session construction under `except Exception`;
on success the session is appended and the bankroll saved. -/
def postSessions (b : Bankroll) (p : PostPayload) (now : DateTime) :
    PostOutcome × Bankroll :=
  match p.buy_in with
  | none => (.badRequest, b)
  | some v1 =>
    match pyFloat v1 with
    | .error .typeError => (.crash, b)
    | .error _ => (.badRequest, b)
    | .ok bi =>
      match p.cash_out with
      | none => (.badRequest, b)
      | some v2 =>
        match pyFloat v2 with
        | .error .typeError => (.crash, b)
        | .error _ => (.badRequest, b)
        | .ok co =>
          match sessionInit p.game (.vNum bi) (.vNum co)
              (some (pyOrStr p.location "Unknown")) (postHours p.hours_played)
              (some (pyOrStr p.notes "")) none now p.stake p.format
              (some (postBullets p.bullets)) p.tag with
          | .error _ => (.badRequest, b)
          | .ok s => (.created s, { b with sessions := b.sessions ++ [s] })

/-- The PUT `/api/sessions/(index)` body: outer `Option` is key presence
(`if key in data`), inner value is the JSON scalar.  String fields carry
null-or-string; the three numeric fields carry a raw scalar for
`maybe_float`. -/
structure PutPayload where
  game : Option (Option String) := none
  location : Option (Option String) := none
  notes : Option (Option String) := none
  format : Option (Option String) := none
  stake : Option (Option String) := none
  tag : Option (Option String) := none
  bullets : Option PyVal := none
  buy_in : Option PyVal := none
  cash_out : Option PyVal := none
  hours_played : Option PyVal := none

/-- `maybe_float` inside `api_session_modify`: absent key keeps the current
value; null or the empty string clears the field to `None`; a value that
`float` rejects keeps the current value; otherwise the parsed number. -/
def maybeFloat (v : Option PyVal) (current : Option ℚ) : Option ℚ :=
  match v with
  | none => current
  | some .vNull => none
  | some (.vStr str) =>
    if str = "" then none
    else
      match pyFloatOfString str with
      | some q => some q
      | none => current
  | some (.vNum q) => some q

/-- The field updates of the PUT branch of `api_session_modify` applied to one
session.  The trailing `s.profit = s.cash_out - s.buy_in` in the source
raises `AttributeError` (`profit` is a property without a setter) and is
swallowed by its `except AttributeError: pass`, so it changes nothing. -/
def updateSession (p : PutPayload) (s : Session) : Session :=
  { s with
    game := p.game.getD s.game
    location :=
      match p.location with
      | none => s.location
      | some v => some (pyOrStr v "Unknown")
    notes :=
      match p.notes with
      | none => s.notes
      | some v => some (pyOrStr v "")
    format := p.format.getD s.format
    stake := p.stake.getD s.stake
    tag := p.tag.getD s.tag
    bullets :=
      match p.bullets with
      | none => s.bullets
      | some v =>
        match pyInt v with
        | some n => n
        | none => if s.bullets = 0 then 1 else s.bullets
    buy_in := maybeFloat p.buy_in s.buy_in
    cash_out := maybeFloat p.cash_out s.cash_out
    hours_played := maybeFloat p.hours_played s.hours_played }

/-- Outcome of the PUT branch: 400 on a bad index; `ok` is the JSON response
carrying the updated session; `crashAfterSave` models `session_to_json`
raising `TypeError` on an undefined profit after the update was already
applied and saved (Flask turns it into a 500). -/
inductive PutOutcome
  | invalidIndex
  | ok (s : Session)
  | crashAfterSave
deriving DecidableEq

/-- The PUT branch of `api_session_modify`: index check first
(`index < 0 or index >= len(bankroll.sessions)`; the route converter only
admits non-negative integers), then the field updates, then save, then the
response serialization which reads `s.profit` and `s.hourly_rate`.
Persistence itself is modelled as always succeeding; a disk failure would be
the 500 branch of the source, outside this model. -/
def putSession (b : Bankroll) (idx : ℕ) (p : PutPayload) :
    PutOutcome × Bankroll :=
  if h : idx < b.sessions.length then
    let s2 := updateSession p (b.sessions.get ⟨idx, h⟩)
    let b2 : Bankroll := { b with sessions := b.sessions.set idx s2 }
    (if s2.buy_in.isSome && s2.cash_out.isSome then .ok s2 else .crashAfterSave, b2)
  else (.invalidIndex, b)

/-- Outcome of the DELETE branch. -/
inductive DelOutcome
  | invalidIndex
  | ok
deriving DecidableEq

/-- The DELETE branch of `api_session_modify`: index check, then
`del bankroll.sessions[index]` and save. -/
def deleteSession (b : Bankroll) (idx : ℕ) : DelOutcome × Bankroll :=
  if idx < b.sessions.length then
    (.ok, { b with sessions := b.sessions.eraseIdx idx })
  else (.invalidIndex, b)

/-! ### Session-length bucketing (`stats_session_length` and
`pandas_playground.py`) -/

/-- The bucket assignment of `pd.cut(hours, bins=[0, 2, 3, 4, 999],
labels=["0–2h", "2–3h", "3–4h", "4h+"], right=False)`: half-open intervals
closed on the left; values outside `[0, 999)` fall in no bin and the row is
dropped by the subsequent groupby. -/
def lengthBucket (h : ℚ) : Option String :=
  if 0 ≤ h ∧ h < 2 then some "0–2h"
  else if 2 ≤ h ∧ h < 3 then some "2–3h"
  else if 3 ≤ h ∧ h < 4 then some "3–4h"
  else if 4 ≤ h ∧ h < 999 then some "4h+"
  else none

/-- Bucket of one session in `stats_session_length`: sessions with unknown
hours are removed by `dropna` before the cut.  (The `profit` part of the
`dropna` never removes a row: building the dataframe already evaluates
`s.profit`, which raises before `dropna` if it were undefined.) -/
def Session.lengthBucketOf (s : Session) : Option String :=
  s.hours_played.bind lengthBucket

/-! ## Shared concrete values for witnesses and counterexamples -/

/-- A concrete well-formed session mirroring the first seeded demo session. -/
def baseSession : Session :=
  { game := some "0.10/0.20 NLH"
    buy_in := some 20
    cash_out := some 42
    location := some "Online"
    hours_played := some (5 / 2)
    notes := some "Ran hot"
    date := ⟨2025, 1, 1, 0, 0, 0, 0⟩
    stake := some "0.10/0.20"
    format := some "cash"
    bullets := 1
    tag := some "A-game" }

/-- A fixed reference instant standing for `datetime.now()` in witnesses. -/
def now0 : DateTime := ⟨2025, 6, 1, 12, 0, 0, 0⟩

/-- The stake column of a load result, to state concrete storage facts. -/
def loadedStakes : Except PyErr Bankroll → Option (List (Option String))
  | .ok b => some (b.sessions.map Session.stake)
  | .error _ => none

/-- The stake of a construction result, to state concrete facts. -/
def resultStake : Except PyErr Session → Option (Option String)
  | .ok s => some s.stake
  | .error _ => none

/-- Whether a POST outcome is the 201 created response. -/
def isCreated : PostOutcome → Bool
  | .created _ => true
  | _ => false

/-- The well-formedness every session has when it was built by
`Session.__init__` (create, seed, or load) and its nullable slots were not
afterwards cleared through the PUT handler: numeric amounts present, stake
and location truthy, tag and notes not null, date within the bounds Python
datetime enforces. -/
def GoodSession (s : Session) : Prop :=
  s.buy_in.isSome = true ∧ s.cash_out.isSome = true ∧ truthyS s.stake = true ∧
    s.tag.isSome = true ∧ s.notes.isSome = true ∧ truthyS s.location = true ∧
    s.date.InRange

instance (s : Session) : Decidable (GoodSession s) := by
  unfold GoodSession; infer_instance

/-! ## Helper lemmas -/

theorem digitVal_digitChar {d : ℕ} (h : d < 10) :
    digitVal (digitChar d) = some d := by
  interval_cases d <;> rfl

theorem parse2_pad2 {n : ℕ} (h : n < 100) :
    parse2 (digitChar (n / 10)) (digitChar (n % 10)) = some n := by
  rw [parse2, digitVal_digitChar (by omega), digitVal_digitChar (by omega)]
  show some (10 * (n / 10) + n % 10) = some n
  congr 1
  omega

theorem parse4_pad4 {n : ℕ} (h : n < 10000) :
    parse4 (digitChar (n / 1000)) (digitChar (n / 100 % 10))
      (digitChar (n / 10 % 10)) (digitChar (n % 10)) = some n := by
  rw [parse4, digitVal_digitChar (by omega), digitVal_digitChar (by omega),
    digitVal_digitChar (by omega), digitVal_digitChar (by omega)]
  show some (1000 * (n / 1000) + 100 * (n / 100 % 10) + 10 * (n / 10 % 10)
    + n % 10) = some n
  congr 1
  omega

theorem parse6_pad6 {n : ℕ} (h : n < 1000000) :
    parse6 (digitChar (n / 100000)) (digitChar (n / 10000 % 10))
      (digitChar (n / 1000 % 10)) (digitChar (n / 100 % 10))
      (digitChar (n / 10 % 10)) (digitChar (n % 10)) = some n := by
  rw [parse6, digitVal_digitChar (by omega), digitVal_digitChar (by omega),
    digitVal_digitChar (by omega), digitVal_digitChar (by omega),
    digitVal_digitChar (by omega), digitVal_digitChar (by omega)]
  show some (100000 * (n / 100000) + 10000 * (n / 10000 % 10)
    + 1000 * (n / 1000 % 10) + 100 * (n / 100 % 10) + 10 * (n / 10 % 10)
    + n % 10) = some n
  congr 1
  omega

theorem parseMicro_pad6 {us : ℕ} (h : us < 1000000) :
    parseMicro ('.' :: pad6 us) = some us := by
  show parse6 (digitChar (us / 100000)) (digitChar (us / 10000 % 10))
    (digitChar (us / 1000 % 10)) (digitChar (us / 100 % 10))
    (digitChar (us / 10 % 10)) (digitChar (us % 10)) = some us
  exact parse6_pad6 h

theorem fromIso_isoChars {d : DateTime} (h : d.InRange) :
    fromIsoChars (isoChars d) = some d := by
  obtain ⟨y, mo, da, ho, mi, se, us⟩ := d
  obtain ⟨h1, h2, h3, h4, h5, h6, h7⟩ := h
  dsimp only at h1 h2 h3 h4 h5 h6 h7
  by_cases hus : us = 0
  · subst hus
    show fromIsoChars
      (digitChar (y / 1000) :: digitChar (y / 100 % 10) :: digitChar (y / 10 % 10)
        :: digitChar (y % 10) :: '-' :: digitChar (mo / 10) :: digitChar (mo % 10)
        :: '-' :: digitChar (da / 10) :: digitChar (da % 10)
        :: 'T' :: digitChar (ho / 10) :: digitChar (ho % 10)
        :: ':' :: digitChar (mi / 10) :: digitChar (mi % 10)
        :: ':' :: digitChar (se / 10) :: digitChar (se % 10) :: []) = _
    rw [fromIsoChars, parse4_pad4 (by omega), parse2_pad2 (by omega),
      parse2_pad2 (by omega), parse2_pad2 (by omega), parse2_pad2 (by omega),
      parse2_pad2 (by omega)]
    rfl
  · show fromIsoChars
      (digitChar (y / 1000) :: digitChar (y / 100 % 10) :: digitChar (y / 10 % 10)
        :: digitChar (y % 10) :: '-' :: digitChar (mo / 10) :: digitChar (mo % 10)
        :: '-' :: digitChar (da / 10) :: digitChar (da % 10)
        :: 'T' :: digitChar (ho / 10) :: digitChar (ho % 10)
        :: ':' :: digitChar (mi / 10) :: digitChar (mi % 10)
        :: ':' :: digitChar (se / 10) :: digitChar (se % 10)
        :: (if us = 0 then [] else '.' :: pad6 us)) = _
    rw [if_neg hus, fromIsoChars, parse4_pad4 (by omega), parse2_pad2 (by omega),
      parse2_pad2 (by omega), parse2_pad2 (by omega), parse2_pad2 (by omega),
      parse2_pad2 (by omega), parseMicro_pad6 (by omega)]
    rfl

theorem isoformat_ne_empty (d : DateTime) : d.isoformat ≠ "" := by
  intro hcon
  have : (DateTime.isoformat d).data = "".data := by rw [hcon]
  revert this
  show (isoChars d) = [] → False
  intro hnil
  simp [isoChars, pad4] at hnil

theorem datetimeFromisoformat_isoformat {d : DateTime} (h : d.InRange) :
    datetimeFromisoformat d.isoformat = .ok d := by
  show (match fromIsoChars (DateTime.isoformat d).data with
    | some x => Except.ok x
    | none => Except.error PyErr.valueError) = Except.ok d
  have hdata : (DateTime.isoformat d).data = isoChars d := rfl
  rw [hdata, fromIso_isoChars h]

theorem sessionFromDict_sessionToDict {s : Session} (now : DateTime)
    (hg : GoodSession s) :
    sessionFromDict (sessionToDict s) now = .ok s := by
  obtain ⟨g, bi, co, loc, hp, no, dt, st, fo, bu, ta⟩ := s
  obtain ⟨hb, hc, hst, htag, hnotes, hloc, hdate⟩ := hg
  dsimp only at hb hc hst htag hnotes hloc hdate
  obtain ⟨bq, rfl⟩ := Option.isSome_iff_exists.mp hb
  obtain ⟨cq, rfl⟩ := Option.isSome_iff_exists.mp hc
  obtain ⟨tv, rfl⟩ := Option.isSome_iff_exists.mp htag
  obtain ⟨nv, rfl⟩ := Option.isSome_iff_exists.mp hnotes
  obtain ⟨sv, rfl⟩ : ∃ x, st = some x := by
    cases st with
    | none => exact absurd hst (by simp [truthyS])
    | some x => exact ⟨x, rfl⟩
  obtain ⟨lv, rfl⟩ : ∃ x, loc = some x := by
    cases loc with
    | none => exact absurd hloc (by simp [truthyS])
    | some x => exact ⟨x, rfl⟩
  have hsv : ¬ sv = "" := by
    simpa [truthyS] using hst
  have hlv : ¬ lv = "" := by
    simpa [truthyS] using hloc
  simp only [sessionFromDict, sessionToDict]
  rw [if_neg (isoformat_ne_empty dt), datetimeFromisoformat_isoformat hdate]
  by_cases hnv : nv = ""
  · subst hnv
    simp [sessionInit, dictNum, pyFloat, pyOrStr, hst, hsv, hlv]
    rfl
  · simp [sessionInit, dictNum, pyFloat, pyOrStr, hst, hsv, hlv, hnv]
    rfl

/-- C2 (amended): For every bankroll whose sessions are well formed in the
sense of `GoodSession` — numeric amounts present, stake and location truthy,
tag and notes not null, date within datetime bounds, which is how every
session leaves `Session.__init__` and remains unless a PUT clears a nullable
slot — loading after saving yields a bankroll whose session sequence equals
the original field-for-field, dates surviving the ISO-8601 round trip, and
whose starting amount is 0 regardless of the original starting amount.  (The
unqualified claim fails: a PUT can set stake to null, and reloading then
re-runs stake inference.) -/
theorem loadBankroll_saveBankroll {b : Bankroll} (now : DateTime)
    (hg : ∀ s ∈ b.sessions, GoodSession s) :
    loadBankroll (saveBankroll b) now = .ok ⟨0, b.sessions⟩ := by
  show (do
    let ss ← (b.sessions.map sessionToDict).mapM (fun d => sessionFromDict d now)
    pure (⟨0, ss⟩ : Bankroll)) = Except.ok ⟨0, b.sessions⟩
  have key : ∀ ss : List Session, (∀ s ∈ ss, GoodSession s) →
      (ss.map sessionToDict).mapM (fun d => sessionFromDict d now) = .ok ss := by
    intro ss hss
    induction ss with
    | nil => rfl
    | cons s rest ih =>
      rw [List.map_cons, List.mapM_cons,
        sessionFromDict_sessionToDict now (hss s (by simp)),
        ih (fun t ht => hss t (List.mem_cons_of_mem _ ht))]
      rfl
  rw [key b.sessions hg]
  rfl

theorem get?_eraseIdx_of_lt {α : Type} (l : List α) (i j : ℕ) (h : j < i) :
    (l.eraseIdx i).get? j = l.get? j := by
  induction l generalizing i j with
  | nil => simp [List.eraseIdx]
  | cons a t ih =>
    cases i with
    | zero => omega
    | succ i =>
      cases j with
      | zero => rfl
      | succ j =>
        show (t.eraseIdx i).get? j = t.get? j
        exact ih i j (by omega)

theorem get?_eraseIdx_of_ge {α : Type} (l : List α) (i j : ℕ) (h : i ≤ j) :
    (l.eraseIdx i).get? j = l.get? (j + 1) := by
  induction l generalizing i j with
  | nil => simp [List.eraseIdx]
  | cons a t ih =>
    cases i with
    | zero => rfl
    | succ i =>
      cases j with
      | zero => omega
      | succ j =>
        show (t.eraseIdx i).get? j = t.get? (j + 1)
        exact ih i j (by omega)

theorem except_bind_ok {ε α β : Type} (a : α) (f : α → Except ε β) :
    (Except.ok a : Except ε α) >>= f = f a := rfl

theorem except_bind_error {ε α β : Type} (e : ε) (f : α → Except ε β) :
    (Except.error e : Except ε α) >>= f = Except.error e := rfl

theorem get?_set_ne {α : Type} (l : List α) (i j : ℕ) (x : α) (h : j ≠ i) :
    (l.set i x).get? j = l.get? j := by
  induction l generalizing i j with
  | nil => rfl
  | cons a t ih =>
    cases i with
    | zero =>
      cases j with
      | zero => omega
      | succ j => rfl
    | succ i =>
      cases j with
      | zero => rfl
      | succ j =>
        show (t.set i x).get? j = t.get? j
        exact ih i j (by omega)

theorem historyAux_spec (ss : List Session) (c : ℚ)
    (h : ∀ s ∈ ss, s.profit.isSome = true) :
    ∃ l, historyAux c ss = some l ∧ l.length = ss.length ∧
      ∀ i, ∀ hi : i < l.length,
        l.get ⟨i, hi⟩ =
          c + ((ss.take (i + 1)).map (fun s => s.profit.getD 0)).sum := by
  induction ss generalizing c with
  | nil => exact ⟨[], rfl, rfl, fun i hi => absurd hi (by simp)⟩
  | cons s rest ih =>
    obtain ⟨p, hp⟩ := Option.isSome_iff_exists.mp (h s (List.mem_cons_self s rest))
    obtain ⟨l, hl, hlen, hget⟩ :=
      ih (c + p) (fun t ht => h t (List.mem_cons_of_mem s ht))
    refine ⟨(c + p) :: l, ?_, by simp [hlen], ?_⟩
    · show (match s.profit with
        | none => none
        | some p => (historyAux (c + p) rest).map (fun l => (c + p) :: l)) =
          some ((c + p) :: l)
      rw [hp]
      show Option.map (fun l => (c + p) :: l) (historyAux (c + p) rest) =
        some ((c + p) :: l)
      rw [hl]
      rfl
    · intro i hi
      cases i with
      | zero => simp [hp]
      | succ i =>
        have hi2 : i < l.length := by simpa using hi
        show l.get ⟨i, hi2⟩ = _
        rw [hget i hi2]
        simp [hp]
        ring

/-! ## Claims -/

/-- C1: For every session, the derived profit equals cash_out minus buy_in
exactly (including negative values), and profit is computed rather than
stored: the PUT handler's `s.profit = ...` raises `AttributeError` (property
without setter), is caught, and changes nothing — `updateSession` embeds
exactly that — so after any sequence of PUT field updates the session's
profit still equals cash_out - buy_in. -/
theorem profit_derived_after_updates (s : Session) (ps : List PutPayload)
    (bq cq : ℚ)
    (hb : (ps.foldl (fun t p => updateSession p t) s).buy_in = some bq)
    (hc : (ps.foldl (fun t p => updateSession p t) s).cash_out = some cq) :
    (ps.foldl (fun t p => updateSession p t) s).profit = some (cq - bq) := by
  simp [Session.profit, hb, hc]

theorem profit_derived_after_updates_witness :
    (([({ cash_out := some (.vNum 50) } : PutPayload)].foldl
      (fun t p => updateSession p t) baseSession)).profit = some 30 := by
  have h := profit_derived_after_updates baseSession
    [{ cash_out := some (.vNum 50) }] 20 50
    (by with_unfolding_all rfl) (by with_unfolding_all rfl)
  rw [h]
  with_unfolding_all rfl

/-- C6: For every session (with its numeric amounts in place, as every
construction path leaves them), hourly_rate is null exactly when
hours_played is null, zero, or negative; otherwise it equals profit divided
by hours_played. -/
theorem hourly_rate_characterization (s : Session) (bq cq : ℚ)
    (hb : s.buy_in = some bq) (hc : s.cash_out = some cq) :
    (s.hourly_rate = none ↔
      s.hours_played = none ∨ ∃ h0, s.hours_played = some h0 ∧ h0 ≤ 0) ∧
    ∀ h0, s.hours_played = some h0 → 0 < h0 →
      s.hourly_rate = some ((cq - bq) / h0) := by
  have hprof : s.profit = some (cq - bq) := by simp [Session.profit, hb, hc]
  constructor
  · cases hh : s.hours_played with
    | none => simp [Session.hourly_rate, hh]
    | some h0 =>
      by_cases h0le : h0 ≤ 0
      · simp [Session.hourly_rate, hh, h0le]
      · simp [Session.hourly_rate, hh, h0le, hprof]
  · intro h0 hh hpos
    simp [Session.hourly_rate, hh, hprof, not_le.mpr hpos]

theorem hourly_rate_characterization_witness :
    baseSession.hourly_rate = some (44 / 5) := by
  have h := (hourly_rate_characterization baseSession 20 42 rfl rfl).2
    (5 / 2) rfl (by norm_num)
  rw [h]
  with_unfolding_all rfl

/-- C7: For every bankroll (whose sessions all have a defined profit, as
every construction path leaves them), bankroll_history has one entry per
session in insertion order, and the i-th entry equals the starting amount
plus the sum of the profits of sessions 0 through i. -/
theorem bankroll_history_running_sum (b : Bankroll)
    (h : ∀ s ∈ b.sessions, s.profit.isSome = true) :
    ∃ l, b.bankroll_history = some l ∧ l.length = b.sessions.length ∧
      ∀ i, ∀ hi : i < l.length,
        l.get ⟨i, hi⟩ = b.starting_amount +
          ((b.sessions.take (i + 1)).map (fun s => s.profit.getD 0)).sum :=
  historyAux_spec b.sessions b.starting_amount h

theorem bankroll_history_running_sum_witness :
    ∃ l, (Bankroll.mk 10 [baseSession, baseSession]).bankroll_history = some l ∧
      l.length = 2 ∧
      ∀ i, ∀ hi : i < l.length,
        l.get ⟨i, hi⟩ = 10 +
          (([baseSession, baseSession].take (i + 1)).map
            (fun s => s.profit.getD 0)).sum :=
  bankroll_history_running_sum ⟨10, [baseSession, baseSession]⟩ (by decide)

/-- C2 (counterexample): a PUT payload with a null stake leaves a session
whose stake is None; saving and reloading the bankroll re-runs stake
inference in `Session.__init__`, so the loaded session's stake is the token
inferred from the game string instead of None — the sequences do not match
field-for-field. -/
theorem save_load_roundtrip_counterexample :
    (updateSession { stake := some none } baseSession).stake = none ∧
    loadedStakes
      (loadBankroll
        (saveBankroll ⟨0, [updateSession { stake := some none } baseSession]⟩)
        now0) = some [some "0.10/0.20"] := by
  constructor
  · rfl
  · with_unfolding_all rfl

theorem loadBankroll_saveBankroll_witness :
    loadBankroll (saveBankroll ⟨5, [baseSession]⟩) now0 =
      .ok ⟨0, [baseSession]⟩ :=
  loadBankroll_saveBankroll now0 (by decide)

/-- C3: For every valid index and every PUT payload, only the supplied fields
of the targeted session change (all other fields and all other sessions are
unchanged); each numeric field goes through `maybe_float`, which keeps the
previous value when the supplied value fails to parse as a number, and sets
the field to null on a supplied null or explicit empty string; in particular
updating cash_out to a non-numeric string leaves cash_out unchanged and the
handler answers `ok` without raising.  (Persistence is modelled as always
succeeding, as in the claim's scenario.) -/
theorem put_update_field_semantics (b : Bankroll) (idx : ℕ) (p : PutPayload)
    (s : Session) (h : idx < b.sessions.length)
    (hs : b.sessions.get ⟨idx, h⟩ = s) :
    (putSession b idx p).2.sessions = b.sessions.set idx (updateSession p s) ∧
    (putSession b idx p).2.starting_amount = b.starting_amount ∧
    (∀ j, j ≠ idx →
      (putSession b idx p).2.sessions.get? j = b.sessions.get? j) ∧
    (p.game = none → (updateSession p s).game = s.game) ∧
    (p.location = none → (updateSession p s).location = s.location) ∧
    (p.notes = none → (updateSession p s).notes = s.notes) ∧
    (p.format = none → (updateSession p s).format = s.format) ∧
    (p.stake = none → (updateSession p s).stake = s.stake) ∧
    (p.tag = none → (updateSession p s).tag = s.tag) ∧
    (p.bullets = none → (updateSession p s).bullets = s.bullets) ∧
    (updateSession p s).date = s.date ∧
    (updateSession p s).buy_in = maybeFloat p.buy_in s.buy_in ∧
    (updateSession p s).cash_out = maybeFloat p.cash_out s.cash_out ∧
    (updateSession p s).hours_played = maybeFloat p.hours_played s.hours_played ∧
    (∀ cur, maybeFloat none cur = cur) ∧
    (∀ cur, maybeFloat (some .vNull) cur = none) ∧
    (∀ cur, maybeFloat (some (.vStr "")) cur = none) ∧
    (∀ st cur, ¬ st = "" → pyFloatOfString st = none →
      maybeFloat (some (.vStr st)) cur = cur) ∧
    (∀ st q cur, ¬ st = "" → pyFloatOfString st = some q →
      maybeFloat (some (.vStr st)) cur = some q) ∧
    (∀ q cur, maybeFloat (some (.vNum q)) cur = some q) ∧
    ((updateSession p s).buy_in.isSome = true →
      (updateSession p s).cash_out.isSome = true →
      (putSession b idx p).1 = PutOutcome.ok (updateSession p s)) := by
  subst hs
  refine ⟨?_, ?_, ?_, ?_, ?_, ?_, ?_, ?_, ?_, ?_, ?_, ?_, ?_, ?_, ?_, ?_, ?_,
    ?_, ?_, ?_, ?_⟩
  · simp [putSession, h]
  · simp [putSession, h]
  · intro j hj
    simp only [putSession, dif_pos h]
    exact get?_set_ne _ _ _ _ hj
  · intro hp; simp [updateSession, hp]
  · intro hp; simp [updateSession, hp]
  · intro hp; simp [updateSession, hp]
  · intro hp; simp [updateSession, hp]
  · intro hp; simp [updateSession, hp]
  · intro hp; simp [updateSession, hp]
  · intro hp; simp [updateSession, hp]
  · rfl
  · rfl
  · rfl
  · rfl
  · intro cur; rfl
  · intro cur; rfl
  · intro cur; rfl
  · intro st cur hne hfail; simp [maybeFloat, hne, hfail]
  · intro st q cur hne hok; simp [maybeFloat, hne, hok]
  · intro q cur; rfl
  · intro hbi hci
    simp only [putSession, dif_pos h]
    have hand : ((updateSession p (b.sessions.get ⟨idx, h⟩)).buy_in.isSome &&
        (updateSession p (b.sessions.get ⟨idx, h⟩)).cash_out.isSome) = true := by
      rw [Bool.and_eq_true]
      exact ⟨hbi, hci⟩
    rw [if_pos hand]

theorem put_update_field_semantics_witness :
    (putSession ⟨0, [baseSession]⟩ 0
        { cash_out := some (.vStr "not_a_number") }).2.sessions =
      [baseSession].set 0
        (updateSession { cash_out := some (.vStr "not_a_number") } baseSession) ∧
    (updateSession { cash_out := some (.vStr "not_a_number") }
        baseSession).cash_out = baseSession.cash_out ∧
    (putSession ⟨0, [baseSession]⟩ 0
        { cash_out := some (.vStr "not_a_number") }).1 =
      PutOutcome.ok
        (updateSession { cash_out := some (.vStr "not_a_number") } baseSession) := by
  have h := put_update_field_semantics ⟨0, [baseSession]⟩ 0
    { cash_out := some (.vStr "not_a_number") } baseSession (by decide) rfl
  refine ⟨h.1, ?_, ?_⟩
  · have hcash := h.2.2.2.2.2.2.2.2.2.2.2.2.1
    rw [hcash]
    have hkeep := h.2.2.2.2.2.2.2.2.2.2.2.2.2.2.2.2.2.1 "not_a_number"
      baseSession.cash_out (by decide) (by with_unfolding_all rfl)
    exact hkeep
  · exact h.2.2.2.2.2.2.2.2.2.2.2.2.2.2.2.2.2.2.2.2
      (by with_unfolding_all rfl) (by with_unfolding_all rfl)

/-- C8: For every DELETE or PUT on an index outside the range of the current
session list, the handler answers the 400 error and the bankroll is
unchanged; a DELETE with a valid index removes exactly the session at that
position (entries below it keep their place, entries above shift down by
one, the length drops by one). -/
theorem session_modify_index_bounds (b : Bankroll) (idx : ℕ) (p : PutPayload) :
    (b.sessions.length ≤ idx →
      deleteSession b idx = (DelOutcome.invalidIndex, b) ∧
      putSession b idx p = (PutOutcome.invalidIndex, b)) ∧
    (idx < b.sessions.length →
      (deleteSession b idx).1 = DelOutcome.ok ∧
      (deleteSession b idx).2.sessions = b.sessions.eraseIdx idx ∧
      (deleteSession b idx).2.sessions.length = b.sessions.length - 1 ∧
      (∀ j, j < idx →
        (deleteSession b idx).2.sessions.get? j = b.sessions.get? j) ∧
      (∀ j, idx ≤ j →
        (deleteSession b idx).2.sessions.get? j = b.sessions.get? (j + 1))) := by
  constructor
  · intro hge
    constructor
    · simp [deleteSession, Nat.not_lt.mpr hge]
    · simp [putSession, Nat.not_lt.mpr hge]
  · intro hlt
    refine ⟨?_, ?_, ?_, ?_, ?_⟩
    · simp [deleteSession, hlt]
    · simp [deleteSession, hlt]
    · simp only [deleteSession, if_pos hlt]
      have := List.length_eraseIdx_add_one hlt
      omega
    · intro j hj
      simp only [deleteSession, if_pos hlt]
      exact get?_eraseIdx_of_lt _ _ _ hj
    · intro j hj
      simp only [deleteSession, if_pos hlt]
      exact get?_eraseIdx_of_ge _ _ _ hj

theorem session_modify_index_bounds_witness :
    deleteSession ⟨0, [baseSession, baseSession]⟩ 5 =
      (DelOutcome.invalidIndex, ⟨0, [baseSession, baseSession]⟩) ∧
    (deleteSession ⟨0, [baseSession, baseSession]⟩ 0).2.sessions.length = 1 := by
  have hout := (session_modify_index_bounds ⟨0, [baseSession, baseSession]⟩ 5
    { }).1 (by decide)
  have hin := (session_modify_index_bounds ⟨0, [baseSession, baseSession]⟩ 0
    { }).2 (by decide)
  exact ⟨hout.1, hin.2.2.1⟩

/-- C9 (counterexample): a session whose hours_played is 1000 — which is 4 or
more — is assigned to no bucket at all: `pd.cut` with bins `[0, 2, 3, 4,
999]` stops at 999, so the last bucket is [4, 999), not [4, ∞). -/
theorem length_bucket_counterexample :
    ({ baseSession with hours_played := some 1000 } : Session).lengthBucketOf
      = none ∧ (4 : ℚ) ≤ 1000 := by
  constructor
  · with_unfolding_all rfl
  · norm_num

/-- C9 (amended): every session with known hours_played in [0, 999) is
assigned to exactly one of the four half-open buckets [0,2), [2,3), [3,4),
[4,999) according to its hours_played; sessions with unknown hours are
excluded, and so are sessions with negative hours or hours of 999 and
above (the cut's last bin edge is 999, not infinity). -/
theorem length_bucket_characterization (s : Session) (h0 : ℚ) :
    (s.hours_played = none → s.lengthBucketOf = none) ∧
    (s.hours_played = some h0 → s.lengthBucketOf = lengthBucket h0) ∧
    (lengthBucket h0 = some "0–2h" ↔ 0 ≤ h0 ∧ h0 < 2) ∧
    (lengthBucket h0 = some "2–3h" ↔ 2 ≤ h0 ∧ h0 < 3) ∧
    (lengthBucket h0 = some "3–4h" ↔ 3 ≤ h0 ∧ h0 < 4) ∧
    (lengthBucket h0 = some "4h+" ↔ 4 ≤ h0 ∧ h0 < 999) ∧
    (lengthBucket h0 = none ↔ h0 < 0 ∨ 999 ≤ h0) := by
  refine ⟨?_, ?_, ?_, ?_, ?_, ?_, ?_⟩
  · intro hh
    simp [Session.lengthBucketOf, hh]
  · intro hh
    simp [Session.lengthBucketOf, hh]
  · unfold lengthBucket
    split_ifs <;> simp_all
  · unfold lengthBucket
    split_ifs <;> simp_all
  · unfold lengthBucket
    split_ifs <;> simp_all <;> (intro hx; linarith)
  · unfold lengthBucket
    split_ifs <;> simp_all <;> (intro hx; linarith)
  · unfold lengthBucket
    split_ifs with h1 h2 h3 h4
    · constructor
      · intro hcon
        exact absurd hcon (by simp)
      · intro hcon
        exfalso
        rcases hcon with hx | hx
        · linarith [h1.1]
        · linarith [h1.2]
    · constructor
      · intro hcon
        exact absurd hcon (by simp)
      · intro hcon
        exfalso
        rcases hcon with hx | hx
        · linarith [h2.1]
        · linarith [h2.2]
    · constructor
      · intro hcon
        exact absurd hcon (by simp)
      · intro hcon
        exfalso
        rcases hcon with hx | hx
        · linarith [h3.1]
        · linarith [h3.2]
    · constructor
      · intro hcon
        exact absurd hcon (by simp)
      · intro hcon
        exfalso
        rcases hcon with hx | hx
        · linarith [h4.1]
        · linarith [h4.2]
    · constructor
      · intro _
        by_contra hcon
        push_neg at hcon
        obtain ⟨hge, hlt⟩ := hcon
        have hb1 : 2 ≤ h0 := by
          rcases not_and_or.mp h1 with hx | hx
          · exact absurd hge hx
          · exact not_lt.mp hx
        have hb2 : 3 ≤ h0 := by
          rcases not_and_or.mp h2 with hx | hx
          · exact absurd hb1 hx
          · exact not_lt.mp hx
        have hb3 : 4 ≤ h0 := by
          rcases not_and_or.mp h3 with hx | hx
          · exact absurd hb2 hx
          · exact not_lt.mp hx
        exact h4 ⟨hb3, hlt⟩
      · intro _
        rfl

theorem length_bucket_characterization_witness :
    baseSession.lengthBucketOf = some "2–3h" := by
  have h := length_bucket_characterization baseSession (5 / 2)
  rw [h.2.1 rfl]
  exact (h.2.2.2.1).mpr (by norm_num)

/-- C10 (counterexample): an explicitly supplied empty-string stake is not
stored as given: `stake or self._infer_stake_from_game(game)` treats the
empty string as falsy and runs inference, so game "0.10/0.20 NLH" with
stake "" stores "0.10/0.20", not "". -/
theorem stake_inference_counterexample :
    resultStake (sessionInit (some "0.10/0.20 NLH") (.vNum 20) (.vNum 42)
        (some "Online") none (some "") none now0 (some "") (some "cash")
        (some 1) none) = some (some "0.10/0.20") ∧
    ¬ (some (some "0.10/0.20") : Option (Option String)) = some (some "") := by
  constructor
  · with_unfolding_all rfl
  · intro hcon
    have : ("0.10/0.20" : String) = "" := by injection (by injection hcon)
    exact absurd this (by decide)

/-- C10 (amended): stake inference runs exactly once, at construction, and
only when the supplied stake is falsy (absent, null, or the empty string —
an explicitly supplied empty string is treated like an absent one); a
truthy supplied stake is stored as given; the inferred stake is the first
whitespace-delimited token of the game string if that token contains a
slash, else "unknown" (game "0.10/0.20 NLH" yields "0.10/0.20" and "Omaha"
yields "unknown"); PUT updates store the supplied stake raw and never
re-run the inference. -/
theorem stake_inference_characterization :
    (∀ g bi ci loc hp no dt now st fo bu ta s,
      truthyS st = true →
      sessionInit g bi ci loc hp no dt now st fo bu ta = .ok s →
      s.stake = st) ∧
    (∀ g bi ci loc hp no dt now st fo bu ta s,
      truthyS st = false →
      sessionInit g bi ci loc hp no dt now st fo bu ta = .ok s →
      ∃ r, inferStakeFromGame g = .ok r ∧ s.stake = some r) ∧
    inferStakeFromGame (some "0.10/0.20 NLH") = .ok "0.10/0.20" ∧
    inferStakeFromGame (some "Omaha") = .ok "unknown" ∧
    (∀ gs p rest, splitWs gs = p :: rest →
      inferStakeFromGame (some gs) =
        .ok (if '/' ∈ p then String.mk p else "unknown")) ∧
    (∀ gs, splitWs gs = [] → inferStakeFromGame (some gs) = .ok "unknown") ∧
    (∀ p s, p.stake = none → (updateSession p s).stake = s.stake) ∧
    (∀ p s v, p.stake = some v → (updateSession p s).stake = v) := by
  refine ⟨?_, ?_, ?_, ?_, ?_, ?_, ?_, ?_⟩
  · intro g bi ci loc hp no dt now st fo bu ta s htr hok
    cases hb : pyFloat bi with
    | error e => simp [sessionInit, hb, except_bind_error] at hok
    | ok bv =>
      cases hc : pyFloat ci with
      | error e => simp [sessionInit, hb, hc, except_bind_ok, except_bind_error] at hok
      | ok cv =>
        obtain ⟨sv, rfl⟩ : ∃ x, st = some x := by
          cases st with
          | none => exact absurd htr (by simp [truthyS])
          | some x => exact ⟨x, rfl⟩
        simp only [sessionInit, hb, hc, except_bind_ok, htr, if_true] at hok
        have hok2 : Except.ok
            ({ game := g, buy_in := some bv, cash_out := some cv, location := loc,
               hours_played := hp, notes := no, date := dt.getD now,
               stake := some ((some sv).getD ""), format := fo,
               bullets := bu.getD 1, tag := some (ta.getD "") } : Session) =
            Except.ok s := hok
        cases hok2
        rfl
  · intro g bi ci loc hp no dt now st fo bu ta s htr hok
    cases hb : pyFloat bi with
    | error e => simp [sessionInit, hb, except_bind_error] at hok
    | ok bv =>
      cases hc : pyFloat ci with
      | error e => simp [sessionInit, hb, hc, except_bind_ok, except_bind_error] at hok
      | ok cv =>
        cases hi : inferStakeFromGame g with
        | error e =>
          simp [sessionInit, hb, hc, hi, htr, except_bind_ok, except_bind_error] at hok
        | ok r =>
          refine ⟨r, rfl, ?_⟩
          simp only [sessionInit, hb, hc, hi, htr, except_bind_ok,
            Bool.false_eq_true, if_false] at hok
          cases hok
          rfl
  · with_unfolding_all rfl
  · with_unfolding_all rfl
  · intro gs p rest hsplit
    show (match splitWs gs with
      | [] => Except.ok "unknown"
      | p :: _ => if '/' ∈ p then Except.ok (String.mk p) else Except.ok "unknown")
      = Except.ok (if '/' ∈ p then String.mk p else "unknown")
    rw [hsplit]
    by_cases hsl : '/' ∈ p
    · simp [hsl]
    · simp [hsl]
  · intro gs hsplit
    show (match splitWs gs with
      | [] => Except.ok "unknown"
      | p :: _ => if '/' ∈ p then Except.ok (String.mk p) else Except.ok "unknown")
      = Except.ok "unknown"
    rw [hsplit]
  · intro p s hp
    simp [updateSession, hp]
  · intro p s v hp
    simp [updateSession, hp]

theorem stake_inference_characterization_witness :
    (updateSession { stake := some (some "2/5") } baseSession).stake =
      some "2/5" ∧
    inferStakeFromGame (some "1/2 PLO") = .ok "1/2" := by
  constructor
  · exact stake_inference_characterization.2.2.2.2.2.2.2
      { stake := some (some "2/5") } baseSession (some "2/5") rfl
  · have h := stake_inference_characterization.2.2.2.2.1 "1/2 PLO"
      ['1', '/', '2'] [['P', 'L', 'O']] (by with_unfolding_all rfl)
    rw [h]
    with_unfolding_all rfl

theorem inferStakeFromGame_some_ok (g : String) :
    ∃ r, inferStakeFromGame (some g) = .ok r := by
  show ∃ r, (match splitWs g with
    | [] => Except.ok "unknown"
    | p :: _ =>
      if '/' ∈ p then Except.ok (String.mk p) else Except.ok "unknown")
    = Except.ok r
  rcases hsp : splitWs g with _ | ⟨pp, rest⟩
  · exact ⟨"unknown", rfl⟩
  · by_cases hm : '/' ∈ pp
    · exact ⟨String.mk pp, by simp [hm]⟩
    · exact ⟨"unknown", by simp [hm]⟩

theorem sessionInit_vNum_ok (game : Option String) (q r : ℚ)
    (loc : Option String) (hp : Option ℚ) (no : Option String)
    (dt : Option DateTime) (now : DateTime) (stake : Option String)
    (fo : Option String) (bu : Option ℤ) (ta : Option String)
    (hgs : game ≠ none ∨ truthyS stake = true) :
    ∃ s, sessionInit game (.vNum q) (.vNum r) loc hp no dt now stake fo bu ta
        = .ok s ∧ s.buy_in = some q ∧ s.cash_out = some r := by
  by_cases ht : truthyS stake = true
  · have hs : sessionInit game (.vNum q) (.vNum r) loc hp no dt now stake fo bu ta
        = .ok { game := game, buy_in := some q, cash_out := some r,
                location := loc, hours_played := hp, notes := no,
                date := dt.getD now, stake := some (stake.getD ""),
                format := fo, bullets := bu.getD 1, tag := some (ta.getD "") } := by
      simp only [sessionInit, pyFloat, except_bind_ok, ht, if_true]
      rfl
    exact ⟨_, hs, rfl, rfl⟩
  · obtain ⟨g, rfl⟩ : ∃ g, game = some g := by
      rcases hgs with hx | hx
      · cases game with
        | none => exact absurd rfl hx
        | some g => exact ⟨g, rfl⟩
      · exact absurd hx ht
    obtain ⟨rs, hrs⟩ := inferStakeFromGame_some_ok g
    have hs : sessionInit (some g) (.vNum q) (.vNum r) loc hp no dt now stake fo bu ta
        = .ok { game := some g, buy_in := some q, cash_out := some r,
                location := loc, hours_played := hp, notes := no,
                date := dt.getD now, stake := some rs,
                format := fo, bullets := bu.getD 1, tag := some (ta.getD "") } := by
      have hfalse : truthyS stake = false := by
        cases htb : truthyS stake
        · rfl
        · exact absurd htb ht
      simp only [sessionInit, pyFloat, except_bind_ok, hfalse,
        Bool.false_eq_true, if_false, hrs, except_bind_error]
      rfl
    exact ⟨_, hs, rfl, rfl⟩

/-- C4 (code_bug evidence): `Session.__init__` performs no range or
finiteness validation on buy_in and cash_out, so a POST whose buy_in is -5
is accepted with 201 and stores a session with a negative buy_in — although
`main.py` documents that Session raises validation errors for negative
amounts, and the spec states the invariant. -/
theorem post_accepts_negative_buy_in :
    isCreated (postSessions ⟨0, []⟩
      { game := some "NLH", buy_in := some (.vNum (-5)),
        cash_out := some (.vNum 10) } now0).1 = true ∧
    ((postSessions ⟨0, []⟩
      { game := some "NLH", buy_in := some (.vNum (-5)),
        cash_out := some (.vNum 10) } now0).2.sessions.map Session.buy_in
      = [some (-5)]) ∧
    ((-5 : ℚ) < 0) := by
  refine ⟨?_, ?_, by norm_num⟩
  · with_unfolding_all rfl
  · with_unfolding_all rfl

/-- C5 (counterexample): a POST whose buy_in and cash_out are both valid
numbers but which omits game (and stake) is answered 400 all the same:
session construction raises AttributeError (`None.split()`) inside the
catch-all `except Exception`.  So 400 does not occur exactly when buy_in or
cash_out is missing or unparseable. -/
theorem post_create_400_counterexample :
    postSessions ⟨0, []⟩
      { buy_in := some (.vNum 5), cash_out := some (.vNum 10) } now0
      = (.badRequest, ⟨0, []⟩) ∧
    pyFloat (.vNum 5) = .ok 5 ∧ pyFloat (.vNum 10) = .ok 10 := by
  refine ⟨?_, rfl, rfl⟩
  with_unfolding_all rfl

/-- C5 (amended): the POST handler answers 400 when buy_in or cash_out is
missing, or is a string that does not parse as a number, or when both parse
but session construction fails (game absent or null while stake is absent,
null or empty); a null buy_in or cash_out instead escapes the handler as an
uncaught TypeError (a 500, not a 400); in every failure case the bankroll
is unchanged; otherwise a session holding the parsed amounts is created,
appended to the bankroll, persisted, and returned with status 201. -/
theorem post_create_status_characterization (b : Bankroll) (p : PostPayload)
    (now : DateTime) :
    (p.buy_in = none → postSessions b p now = (.badRequest, b)) ∧
    (p.buy_in = some .vNull → postSessions b p now = (.crash, b)) ∧
    (∀ v, p.buy_in = some v → pyFloat v = .error .valueError →
      postSessions b p now = (.badRequest, b)) ∧
    (∀ v q, p.buy_in = some v → pyFloat v = .ok q →
      (p.cash_out = none → postSessions b p now = (.badRequest, b)) ∧
      (p.cash_out = some .vNull → postSessions b p now = (.crash, b)) ∧
      (∀ w, p.cash_out = some w → pyFloat w = .error .valueError →
        postSessions b p now = (.badRequest, b)) ∧
      (∀ w r, p.cash_out = some w → pyFloat w = .ok r →
        (p.game = none → truthyS p.stake = false →
          postSessions b p now = (.badRequest, b)) ∧
        ((p.game ≠ none ∨ truthyS p.stake = true) →
          ∃ s, postSessions b p now =
              (.created s, { b with sessions := b.sessions ++ [s] }) ∧
            s.buy_in = some q ∧ s.cash_out = some r))) := by
  refine ⟨?_, ?_, ?_, ?_⟩
  · intro h
    simp [postSessions, h]
  · intro h
    simp [postSessions, h, pyFloat]
  · intro v h hv
    simp [postSessions, h, hv]
  · intro v q h hq
    refine ⟨?_, ?_, ?_, ?_⟩
    · intro hc
      simp [postSessions, h, hq, hc]
    · intro hc
      rw [show (PyVal.vNull : PyVal) = .vNull from rfl] at hc
      simp only [postSessions, h, hq, hc]
      rw [show pyFloat .vNull = .error .typeError from rfl]
    · intro w hc hw
      simp [postSessions, h, hq, hc, hw]
    · intro w r hc hw
      constructor
      · intro hg hst
        have hsi : sessionInit p.game (.vNum q) (.vNum r)
            (some (pyOrStr p.location "Unknown")) (postHours p.hours_played)
            (some (pyOrStr p.notes "")) none now p.stake p.format
            (some (postBullets p.bullets)) p.tag = .error .attributeError := by
          simp [sessionInit, pyFloat, except_bind_ok, except_bind_error, hst,
            hg, inferStakeFromGame]
        simp [postSessions, h, hq, hc, hw, hsi]
      · intro hgs
        obtain ⟨s, hs, hbq, hcr⟩ := sessionInit_vNum_ok p.game q r
          (some (pyOrStr p.location "Unknown")) (postHours p.hours_played)
          (some (pyOrStr p.notes "")) none now p.stake p.format
          (some (postBullets p.bullets)) p.tag hgs
        refine ⟨s, ?_, hbq, hcr⟩
        simp [postSessions, h, hq, hc, hw, hs]

theorem post_create_status_characterization_witness :
    ∃ s, postSessions ⟨0, []⟩
        { game := some "NLH", buy_in := some (.vNum 20),
          cash_out := some (.vNum 42) } now0
        = (.created s, ⟨0, [s]⟩) ∧
      s.buy_in = some 20 ∧ s.cash_out = some 42 := by
  have h := ((post_create_status_characterization ⟨0, []⟩
      { game := some "NLH", buy_in := some (.vNum 20),
        cash_out := some (.vNum 42) } now0).2.2.2
    (.vNum 20) 20 rfl rfl).2.2.2 (.vNum 42) 42 rfl rfl
  obtain ⟨s, hs, hbq, hcr⟩ := h.2 (Or.inl (by simp))
  exact ⟨s, by simpa using hs, hbq, hcr⟩

end ProfitPulse
